import Mathlib

/-!
Shallow embedding of the `rust-ole` CFB (Compound File Binary) reader.

The Rust sources embedded here are `src/common.rs`, `src/header.rs`,
`src/difat.rs`, `src/fat.rs`, `src/mini_fat.rs`, `src/directory.rs` and
`src/ole.rs`.  Machine integers (`u8`...`u64`, `usize`) are modelled as
`Nat` (no arithmetic in the code can overflow a `u64` on the inputs we
study, and `usize` subtraction never underflows because each subtraction
`size - total_read` is guarded by the loop invariant `total_read ≤ size`;
Lean's truncated subtraction agrees with Rust wherever the code is
reached).  Byte buffers are `List Nat`.

Fallible Rust code returns `Res α = Except Outcome α` where `Outcome`
distinguishes
  * `fail e`  — an `OleError` value returned through `Result`,
  * `abort`   — a Rust panic (slice/vec index out of bounds, division by
                zero, or `Option::unwrap` on `None`),
  * `fuelOut` — a loop in the source that is not guaranteed to terminate
                (`loop`/`while let` chain walks) exhausted its fuel; a
                result of `fuelOut` for every fuel models divergence.

All `binrw` decode failures surface in `ole.rs` as
`OleError::ParseError` (via `#[from] binrw::Error`), so the byte-level
decoders are written in `Option` and wrapped into `ParseError` at every
use site, exactly as observable from the Rust code.
-/

set_option maxRecDepth 20000

abbrev Bytes := List Nat

/-- `SectorType` from `src/common.rs` (binrw enum: the six sentinel
values `0xFFFFFFFA..=0xFFFFFFFF` are tagged variants, everything else is
`RegularSect(u32)`). -/
inductive SectorType
  | MaxRegSect
  | NotApplicable
  | DifSect
  | FatSect
  | EndOfChain
  | FreeSect
  | RegularSect (v : Nat)
deriving DecidableEq, Repr

/-- `MinorVersion` from `src/common.rs`: the only decodable value is
`0x003E`. -/
inductive MinorVersion
  | MainVersion
deriving DecidableEq, Repr

/-- `MajorVersion` from `src/common.rs`. -/
inductive MajorVersion
  | Version3
  | Version4
deriving DecidableEq, Repr

/-- `ObjectType` from `src/directory.rs` (magic bytes 0,1,2,5). -/
inductive ObjectType
  | Unknown
  | Storage
  | Stream
  | RootStorage
deriving DecidableEq, Repr

/-- `Color` from `src/directory.rs` (magic bytes 0,1). -/
inductive Color
  | Red
  | Black
deriving DecidableEq, Repr

/-- `OleError` from `src/common.rs`.  `IoError` and `ParseError` carry
payloads in Rust (`std::io::Error`, `binrw::Error`); the payloads never
influence control flow, so they are dropped. -/
inductive OleError
  | InvalidFileFormat
  | InvalidDifat
  | IoError
  | ParseError
  | InvalidEntryIndex
  | InvalidEntrySize
  | InvalidEntryChain
deriving DecidableEq, Repr

/-- How a modelled Rust computation can fail to produce a value:
a returned `OleError`, a panic, or fuel exhaustion of an unbounded
source loop. -/
inductive Outcome
  | fail (e : OleError)
  | abort
  | fuelOut
deriving DecidableEq, Repr

abbrev Res (α : Type) := Except Outcome α

/-- `get_valid_entries` from `src/common.rs`: iterate the input;
`break` on `EndOfChain`, push `RegularSect` entries, silently skip every
other sentinel. -/
def get_valid_entries : List SectorType → List SectorType
  | [] => []
  | e :: rest =>
    if e = SectorType.EndOfChain then []
    else
      match e with
      | SectorType.RegularSect v => SectorType.RegularSect v :: get_valid_entries rest
      | _ => get_valid_entries rest

/-- `get_sector_size` from `src/common.rs`. -/
def get_sector_size (version : MajorVersion) : Nat :=
  if version = MajorVersion.Version3 then 512 else 4096

/-- Predicate used in the statements: is this a `RegularSect`? -/
def SectorType.isRegular : SectorType → Bool
  | SectorType.RegularSect _ => true
  | _ => false

/-! ### Byte-level readers (the parts of `binrw` the sources use)

Each reader consumes a little-endian value from the front of the buffer
and returns the remainder; `none` is a `binrw` decode failure. -/

def read_u8 : Bytes → Option (Nat × Bytes)
  | [] => none
  | x :: rest => some (x, rest)

def read_u16 (b : Bytes) : Option (Nat × Bytes) := do
  let (x0, b) ← read_u8 b
  let (x1, b) ← read_u8 b
  some (x0 + 256 * x1, b)

def read_u32 (b : Bytes) : Option (Nat × Bytes) := do
  let (x0, b) ← read_u16 b
  let (x1, b) ← read_u16 b
  some (x0 + 65536 * x1, b)

def read_u64 (b : Bytes) : Option (Nat × Bytes) := do
  let (x0, b) ← read_u32 b
  let (x1, b) ← read_u32 b
  some (x0 + 4294967296 * x1, b)

def read_u128 (b : Bytes) : Option (Nat × Bytes) := do
  let (x0, b) ← read_u64 b
  let (x1, b) ← read_u64 b
  some (x0 + 18446744073709551616 * x1, b)

def read_bytes (n : Nat) (b : Bytes) : Option (Bytes × Bytes) :=
  if n ≤ b.length then some (b.take n, b.drop n) else none

/-- Decoding a `u32` into a `SectorType`: `binrw` tries the sentinel
magics in declaration order and falls back to `RegularSect`. -/
def sector_of_u32 (v : Nat) : SectorType :=
  if v = 0xFFFFFFFA then SectorType.MaxRegSect
  else if v = 0xFFFFFFFB then SectorType.NotApplicable
  else if v = 0xFFFFFFFC then SectorType.DifSect
  else if v = 0xFFFFFFFD then SectorType.FatSect
  else if v = 0xFFFFFFFE then SectorType.EndOfChain
  else if v = 0xFFFFFFFF then SectorType.FreeSect
  else SectorType.RegularSect v

def read_sector (b : Bytes) : Option (SectorType × Bytes) :=
  (read_u32 b).map (fun p => (sector_of_u32 p.1, p.2))

/-- `#[br(count = entry_count)] Vec<SectorType>`: decode `n` sector ids
in sequence. -/
def decode_sectors : Nat → Bytes → Option (List SectorType × Bytes)
  | 0, b => some ([], b)
  | n + 1, b => do
    let (s, b) ← read_sector b
    let (rest, b) ← decode_sectors n b
    some (s :: rest, b)

/-- `Fat`/`MiniFat::read_le_args(buf, (count,))` from `src/fat.rs` and
`src/mini_fat.rs`: `count` sector ids, trailing bytes ignored. -/
def decode_table_sector (count : Nat) (buf : Bytes) : Option (List SectorType) :=
  (decode_sectors count buf).map (·.1)

/-- `Difat::read_le_args(buf, (count,))` from `src/difat.rs`: `count`
sector ids followed by one `next` sector id. -/
def decode_difat_sector (count : Nat) (buf : Bytes) :
    Option (List SectorType × SectorType) := do
  let (entries, b) ← decode_sectors count buf
  let (next, _) ← read_sector b
  some (entries, next)

/-- `AllEntryDifat::read_le` from `src/difat.rs`: `[SectorType; 109]`. -/
def decode_all_difat (buf : Bytes) : Option (List SectorType) :=
  (decode_sectors 109 buf).map (·.1)

/-- `Header` from `src/header.rs`.  The commented-out Rust fields
(signature, CLSID, byte order, reserved) are `binrw` magics consumed
during decode and not stored; the stored fields are exactly these. -/
structure Header where
  minor_version : MinorVersion
  major_version : MajorVersion
  sector_shift : Nat
  mini_sector_shift : Nat
  number_of_directory_sectors : Nat
  number_of_fat_sectors : Nat
  first_directory_sector_location : SectorType
  transaction_signature_number : Nat
  mini_stream_cutoff_size : Nat
  first_mini_fat_sector_location : SectorType
  number_of_mini_fat_sectors : Nat
  first_difat_sector_location : SectorType
  number_of_difat_sectors : Nat
deriving DecidableEq, Repr

/-- `Header::read_le` (the `binrw` derive on `Header`), in `Option`:
struct magic `0xE11AB1A1E011CFD0` (the 8 signature bytes), `u128` magic
`0` (the 16 CLSID bytes), `MinorVersion` magic `0x003E`, `MajorVersion`
(`3` or `4`), field magic `0xFFFE` (byte-order mark with the declared
`u16` endianness), plain `u16` sector/mini-sector shifts (NOT
validated), magic `b"\0\0\0\0\0\0"` (6 reserved bytes), then the plain
integer and sector-id fields.  Everything after the reserved bytes is
accepted unconditionally. -/
def decode_header_opt (b : Bytes) : Option Header :=
  match read_u64 b with
  | none => none
  | some (magic, b) =>
  if magic ≠ 0xE11AB1A1E011CFD0 then none else
  match read_u128 b with
  | none => none
  | some (clsid, b) =>
  if clsid ≠ 0 then none else
  match read_u16 b with
  | none => none
  | some (minor, b) =>
  if minor ≠ 0x003E then none else
  match read_u16 b with
  | none => none
  | some (maj, b) =>
  match (if maj = 3 then some MajorVersion.Version3
         else if maj = 4 then some MajorVersion.Version4
         else none) with
  | none => none
  | some major_version =>
  match read_u16 b with
  | none => none
  | some (bom, b) =>
  if bom ≠ 0xFFFE then none else
  match read_u16 b with
  | none => none
  | some (sector_shift, b) =>
  match read_u16 b with
  | none => none
  | some (mini_sector_shift, b) =>
  match read_bytes 6 b with
  | none => none
  | some (reserved, b) =>
  if reserved ≠ List.replicate 6 0 then none else
  match read_u32 b with
  | none => none
  | some (number_of_directory_sectors, b) =>
  match read_u32 b with
  | none => none
  | some (number_of_fat_sectors, b) =>
  match read_sector b with
  | none => none
  | some (first_directory_sector_location, b) =>
  match read_u32 b with
  | none => none
  | some (transaction_signature_number, b) =>
  match read_u32 b with
  | none => none
  | some (mini_stream_cutoff_size, b) =>
  match read_sector b with
  | none => none
  | some (first_mini_fat_sector_location, b) =>
  match read_u32 b with
  | none => none
  | some (number_of_mini_fat_sectors, b) =>
  match read_sector b with
  | none => none
  | some (first_difat_sector_location, b) =>
  match read_u32 b with
  | none => none
  | some (number_of_difat_sectors, _) =>
  some { minor_version := MinorVersion.MainVersion, major_version,
         sector_shift, mini_sector_shift, number_of_directory_sectors,
         number_of_fat_sectors, first_directory_sector_location,
         transaction_signature_number, mini_stream_cutoff_size,
         first_mini_fat_sector_location, number_of_mini_fat_sectors,
         first_difat_sector_location, number_of_difat_sectors }

/-- `Header::read_le(...)?` as seen from `ole.rs`: every `binrw`
failure becomes `OleError::ParseError` through `#[from]`. -/
def decode_header (b : Bytes) : Res Header :=
  match decode_header_opt b with
  | none => Except.error (Outcome.fail OleError.ParseError)
  | some h => Except.ok h

/-- `Entry` from `src/directory.rs`.  `chain` is `#[brw(ignore)]`:
always `none` after decode, filled in by `parse_directory`. -/
structure Entry where
  name : Bytes
  name_length : Nat
  object_type : ObjectType
  color : Color
  left_sibling_id : SectorType
  right_sibling_id : SectorType
  child_id : SectorType
  clsid : Bytes
  state_bits : Nat
  creation_time : Nat
  modified_time : Nat
  starting_sector_location : SectorType
  stream_size : Nat
  chain : Option (List SectorType)
deriving DecidableEq, Repr

/-- `Entry::append_chain` from `src/directory.rs`. -/
def Entry.append_chain (entry : Entry) (sector : List SectorType) : Entry :=
  match entry.chain with
  | some l => { entry with chain := some (l ++ sector) }
  | none => { entry with chain := some sector }

/-- `binrw` decode of one 128-byte directory `Entry`
(`src/directory.rs`): only the `ObjectType` and `Color` magics can
reject a value; every other field is a plain integer/array read. -/
def decode_entry (b : Bytes) : Option (Entry × Bytes) :=
  match read_bytes 64 b with
  | none => none
  | some (name, b) =>
  match read_u16 b with
  | none => none
  | some (name_length, b) =>
  match read_u8 b with
  | none => none
  | some (ot, b) =>
  match (if ot = 0 then some ObjectType.Unknown
         else if ot = 1 then some ObjectType.Storage
         else if ot = 2 then some ObjectType.Stream
         else if ot = 5 then some ObjectType.RootStorage
         else none) with
  | none => none
  | some object_type =>
  match read_u8 b with
  | none => none
  | some (c, b) =>
  match (if c = 0 then some Color.Red
         else if c = 1 then some Color.Black
         else none) with
  | none => none
  | some color =>
  match read_sector b with
  | none => none
  | some (left_sibling_id, b) =>
  match read_sector b with
  | none => none
  | some (right_sibling_id, b) =>
  match read_sector b with
  | none => none
  | some (child_id, b) =>
  match read_bytes 16 b with
  | none => none
  | some (clsid, b) =>
  match read_u32 b with
  | none => none
  | some (state_bits, b) =>
  match read_u64 b with
  | none => none
  | some (creation_time, b) =>
  match read_u64 b with
  | none => none
  | some (modified_time, b) =>
  match read_sector b with
  | none => none
  | some (starting_sector_location, b) =>
  match read_u64 b with
  | none => none
  | some (stream_size, b) =>
  some ({ name, name_length, object_type, color, left_sibling_id,
          right_sibling_id, child_id, clsid, state_bits, creation_time,
          modified_time, starting_sector_location, stream_size,
          chain := none }, b)

def decode_entries : Nat → Bytes → Option (List Entry × Bytes)
  | 0, b => some ([], b)
  | n + 1, b => do
    let (e, b) ← decode_entry b
    let (rest, b) ← decode_entries n b
    some (e :: rest, b)

/-- `Directory::read_le_args(buf, (count,))` from `src/directory.rs`:
`count` consecutive 128-byte entries. -/
def decode_directory (count : Nat) (buf : Bytes) : Option (List Entry) :=
  (decode_entries count buf).map (·.1)

/-- `Ole` from `src/ole.rs`. -/
structure Ole where
  header : Header
  version : MajorVersion
  difat : List SectorType
  directory : Option (List SectorType)
  mini_fat : Option (List SectorType)
  fat : Option (List SectorType)
  entries : Option (List Entry)
  body : List (List Nat)
deriving DecidableEq, Repr

/-- `slice::chunks` with positive chunk size, via a fuel bounded by the
list length (each step with `n ≥ 1` strictly shortens the list). -/
def chunksF {α : Type} : Nat → Nat → List α → List (List α)
  | 0, _, _ => []
  | _ + 1, _, [] => []
  | fuel + 1, n, a :: l => (a :: l).take n :: chunksF fuel n ((a :: l).drop n)

def chunks {α : Type} (n : Nat) (l : List α) : List (List α) :=
  chunksF l.length n l

/-- `Ole::from_path` from `src/ole.rs`, with the file contents `buf`
already read (the `fs::read` I/O is outside the model).  The slice
expressions `&buf[..76]`, `&buf[76..512]` and `&buf[relative_pos..]`
panic when the buffer is shorter than the requested range. -/
def Ole.from_path (buf : Bytes) : Res Ole :=
  if buf.length < 76 then Except.error Outcome.abort
  else
    match decode_header (buf.take 76) with
    | Except.error e => Except.error e
    | Except.ok header =>
      if buf.length < 512 then Except.error Outcome.abort
      else
        match decode_all_difat ((buf.drop 76).take 436) with
        | none => Except.error (Outcome.fail OleError.ParseError)
        | some difat_entries =>
          let version := header.major_version
          let sector_size := get_sector_size version
          let relative_pos :=
            if version = MajorVersion.Version4 then (sector_size - 512) * 8
            else 512
          if buf.length < relative_pos then Except.error Outcome.abort
          else
            Except.ok
              { header := header, version := version,
                difat := get_valid_entries difat_entries,
                body := chunks sector_size (buf.drop relative_pos),
                fat := none, directory := none, mini_fat := none,
                entries := none }

/-- The `while let SectorType::RegularSect(v) = cur` walk shared by
`get_fat_chain` and `get_mini_fat_chain` (`src/ole.rs`): push the
current regular id, then index the table (Rust `[]` indexing panics out
of range).  The Rust loop has no bound, so it takes fuel; `fuelOut` for
every fuel models an infinite loop. -/
def chain_walk (table : List SectorType) : Nat → SectorType → Res (List SectorType)
  | 0, SectorType.RegularSect _ => Except.error Outcome.fuelOut
  | fuel + 1, SectorType.RegularSect v =>
    match table[v]? with
    | none => Except.error Outcome.abort
    | some next =>
      (chain_walk table fuel next).map (fun r => SectorType.RegularSect v :: r)
  | _, _ => Except.ok []

/-- `Ole::get_fat_chain`: `self.fat.as_ref().unwrap()` is evaluated
inside the loop body, so a `None` fat only panics once the head is a
regular sector. -/
def Ole.get_fat_chain (o : Ole) (fuel : Nat) (index : SectorType) :
    Res (List SectorType) :=
  match index with
  | SectorType.RegularSect _ =>
    match o.fat with
    | none => Except.error Outcome.abort
    | some table => chain_walk table fuel index
  | _ => Except.ok []

/-- `Ole::get_mini_fat_chain`: identical walk over `self.mini_fat`. -/
def Ole.get_mini_fat_chain (o : Ole) (fuel : Nat) (index : SectorType) :
    Res (List SectorType) :=
  match index with
  | SectorType.RegularSect _ =>
    match o.mini_fat with
    | none => Except.error Outcome.abort
    | some table => chain_walk table fuel index
  | _ => Except.ok []

/-- The `loop` body of `Ole::parse_difat`: read body sector
`current_idx` (missing ⇒ `InvalidDifat`), decode `count` entries plus a
`next` id (decode failure ⇒ `ParseError`), extend the assembled DIFAT
with the `get_valid_entries` of the entries, follow `next` while it is
regular.  The Rust `loop` is unbounded, hence the fuel. -/
def parse_difat_loop (body : List (List Nat)) (count : Nat) :
    Nat → Nat → List SectorType → Res (List SectorType)
  | 0, _, _ => Except.error Outcome.fuelOut
  | fuel + 1, current_idx, difat =>
    match body[current_idx]? with
    | none => Except.error (Outcome.fail OleError.InvalidDifat)
    | some buf =>
      match decode_difat_sector count buf with
      | none => Except.error (Outcome.fail OleError.ParseError)
      | some (entries, next) =>
        match next with
        | SectorType.RegularSect v =>
          parse_difat_loop body count fuel v (difat ++ get_valid_entries entries)
        | _ => Except.ok (difat ++ get_valid_entries entries)

/-- `Ole::parse_difat`. -/
def Ole.parse_difat (fuel : Nat) (o : Ole) : Res Ole :=
  let count := get_sector_size o.version / 4
  match o.header.first_difat_sector_location with
  | SectorType.RegularSect idx =>
    match parse_difat_loop o.body count fuel idx o.difat with
    | Except.error e => Except.error e
    | Except.ok d => Except.ok { o with difat := d }
  | _ => Except.ok o

/-- The sector-loading loop shared verbatim by `Ole::parse_fat`
(iterating the assembled DIFAT) and `Ole::parse_mini_fat` (iterating
the FAT chain of the mini-FAT head): for each regular id, read the body
sector (missing ⇒ `InvalidEntryIndex`), decode `count` sector ids
(failure ⇒ `ParseError`), and extend the accumulated table
(`if table.is_some() { extend } else { table = Some(entries) }`). -/
def load_table_sectors (body : List (List Nat)) (count : Nat) :
    List SectorType → Option (List SectorType) → Res (Option (List SectorType))
  | [], acc => Except.ok acc
  | SectorType.RegularSect idx :: rest, acc =>
    match body[idx]? with
    | none => Except.error (Outcome.fail OleError.InvalidEntryIndex)
    | some buf =>
      match decode_table_sector count buf with
      | none => Except.error (Outcome.fail OleError.ParseError)
      | some entries =>
        match acc with
        | some l => load_table_sectors body count rest (some (l ++ entries))
        | none => load_table_sectors body count rest (some entries)
  | _ :: rest, acc => load_table_sectors body count rest acc

/-- `Ole::parse_fat`: the DIFAT-length guard, then the loading loop
over `self.difat` starting from the current `self.fat`. -/
def Ole.parse_fat (o : Ole) : Res Ole :=
  let count := get_sector_size o.version / 4
  if o.header.number_of_fat_sectors ≠ o.difat.length then
    Except.error (Outcome.fail OleError.InvalidDifat)
  else
    match load_table_sectors o.body count o.difat o.fat with
    | Except.error e => Except.error e
    | Except.ok f => Except.ok { o with fat := f }

/-- `Ole::parse_mini_fat`. -/
def Ole.parse_mini_fat (fuel : Nat) (o : Ole) : Res Ole :=
  let count := get_sector_size o.version / 4
  match o.header.first_mini_fat_sector_location with
  | SectorType.RegularSect _ =>
    match o.get_fat_chain fuel o.header.first_mini_fat_sector_location with
    | Except.error e => Except.error e
    | Except.ok chain =>
      match load_table_sectors o.body count chain o.mini_fat with
      | Except.error e => Except.error e
      | Except.ok m => Except.ok { o with mini_fat := m }
  | _ => Except.ok o

/-- The per-entry chain attachment inside `Ole::parse_directory`'s
`flat_map` closure. -/
def attach_chain (o : Ole) (fuel : Nat) (cutoff : Nat) (entry : Entry) : Res Entry :=
  match entry.object_type with
  | ObjectType.Stream =>
    if entry.stream_size < cutoff then
      (o.get_mini_fat_chain fuel entry.starting_sector_location).map
        entry.append_chain
    else
      (o.get_fat_chain fuel entry.starting_sector_location).map
        entry.append_chain
  | ObjectType.RootStorage =>
    (o.get_fat_chain fuel entry.starting_sector_location).map entry.append_chain
  | _ => Except.ok entry

def attach_chains (o : Ole) (fuel : Nat) (cutoff : Nat) :
    List Entry → Res (List Entry)
  | [] => Except.ok []
  | e :: rest =>
    match attach_chain o fuel cutoff e with
    | Except.error err => Except.error err
    | Except.ok e' =>
      match attach_chains o fuel cutoff rest with
      | Except.error err => Except.error err
      | Except.ok rest' => Except.ok (e' :: rest')

/-- One directory-chain element of `Ole::parse_directory`'s `flat_map`:
a missing body sector or a failed `Directory` decode contributes the
empty vector (the Rust code prints the error and returns `vec![]`). -/
def directory_sector_entries (o : Ole) (fuel count cutoff : Nat)
    (d : SectorType) : Res (List Entry) :=
  match d with
  | SectorType.RegularSect v =>
    match o.body[v]? with
    | none => Except.ok []
    | some buf =>
      match decode_directory count buf with
      | none => Except.ok []
      | some entries => attach_chains o fuel cutoff entries
  | _ => Except.ok []

def directory_entries_of (o : Ole) (fuel count cutoff : Nat) :
    List SectorType → Res (List Entry)
  | [] => Except.ok []
  | d :: rest =>
    match directory_sector_entries o fuel count cutoff d with
    | Except.error e => Except.error e
    | Except.ok es =>
      match directory_entries_of o fuel count cutoff rest with
      | Except.error e => Except.error e
      | Except.ok rest' => Except.ok (es ++ rest')

/-- `Ole::parse_directory`. -/
def Ole.parse_directory (fuel : Nat) (o : Ole) : Res Ole :=
  let count := if o.version = MajorVersion.Version3 then 4 else 32
  match o.header.first_directory_sector_location with
  | SectorType.RegularSect _ =>
    match o.get_fat_chain fuel o.header.first_directory_sector_location with
    | Except.error e => Except.error e
    | Except.ok directories =>
      match directory_entries_of o fuel count
          o.header.mini_stream_cutoff_size directories with
      | Except.error e => Except.error e
      | Except.ok es => Except.ok { o with entries := some es }
  | _ => Except.ok o

/-- `Ole::parse`: the four stages chained with `?`. -/
def Ole.parse (fuel : Nat) (o : Ole) : Res Ole :=
  match o.parse_difat fuel with
  | Except.error e => Except.error e
  | Except.ok o =>
    match o.parse_fat with
    | Except.error e => Except.error e
    | Except.ok o =>
      match o.parse_mini_fat fuel with
      | Except.error e => Except.error e
      | Except.ok o => o.parse_directory fuel

/-- The `for item in chain` loop of `Ole::get_stream_data`: each
regular id contributes `buf[0..min(sector_size, size - total_read)]`
(slicing past the sector's length panics); other ids are skipped. -/
def stream_data_loop (body : List (List Nat)) (size sector_size : Nat) :
    List SectorType → Nat → List Nat → Res (List Nat)
  | [], _, data => Except.ok data
  | SectorType.RegularSect idx :: rest, total_read, data =>
    match body[idx]? with
    | none => Except.error (Outcome.fail OleError.InvalidEntryIndex)
    | some buf =>
      let e := min sector_size (size - total_read)
      if buf.length < e then Except.error Outcome.abort
      else stream_data_loop body size sector_size rest (total_read + e)
        (data ++ buf.take e)
  | _ :: rest, total_read, data =>
    stream_data_loop body size sector_size rest total_read data

/-- `Ole::get_stream_data`. -/
def Ole.get_stream_data (o : Ole) (entry : Entry) : Res (List Nat) :=
  let size := entry.stream_size
  let sector_size := get_sector_size o.version
  match entry.chain with
  | none => Except.error (Outcome.fail OleError.InvalidEntryChain)
  | some chain => stream_data_loop o.body size sector_size chain 0 []

/-- The `for item in chain` loop of `Ole::get_mini_stream_data`: for a
regular mini-sector id `idx`, index the root chain at `idx / count`
(Rust `[]` indexing panics out of range; `count = 0` makes the division
itself panic), and when that yields `RegularSect(cur)` copy
`buf[cur * mini_sector_size .. cur * mini_sector_size + min(mini_sector_size, size - total_read)]`
out of body sector `cur` (slicing past the buffer panics). -/
def mini_stream_loop (body : List (List Nat))
    (mini_stream_chain : List SectorType) (mini_sector_size count size : Nat) :
    List SectorType → Nat → List Nat → Res (List Nat)
  | [], _, data => Except.ok data
  | SectorType.RegularSect idx :: rest, total_read, data =>
    if count = 0 then Except.error Outcome.abort
    else
      match mini_stream_chain[idx / count]? with
      | none => Except.error Outcome.abort
      | some sector_cur =>
        match sector_cur with
        | SectorType.RegularSect v =>
          match body[v]? with
          | none => Except.error (Outcome.fail OleError.InvalidEntryIndex)
          | some buf =>
            let start := v * mini_sector_size
            let stop := start + min mini_sector_size (size - total_read)
            if buf.length < stop then Except.error Outcome.abort
            else mini_stream_loop body mini_stream_chain mini_sector_size
              count size rest (total_read + (stop - start))
              (data ++ ((buf.drop start).take (stop - start)))
        | _ =>
          mini_stream_loop body mini_stream_chain mini_sector_size count size
            rest total_read data
  | _ :: rest, total_read, data =>
    mini_stream_loop body mini_stream_chain mini_sector_size count size rest
      total_read data

/-- `Ole::get_mini_stream_data`.  NOTE (faithful to the source): the
"mini sector size" is `self.header.mini_sector_shift` itself (the shift
value, normally 6), not `2^shift = 64`, and `count` is
`sector_size / mini_sector_shift`. -/
def Ole.get_mini_stream_data (o : Ole) (entry : Entry) : Res (List Nat) :=
  let mini_sector_size := o.header.mini_sector_shift
  if mini_sector_size = 0 then Except.error Outcome.abort
  else
    let sector_size := get_sector_size o.version
    let count := sector_size / mini_sector_size
    let size := entry.stream_size
    match entry.chain with
    | none => Except.error (Outcome.fail OleError.InvalidEntryChain)
    | some chain =>
      match o.entries with
      | none => Except.error (Outcome.fail OleError.InvalidEntryChain)
      | some es =>
        match es[0]? with
        | none => Except.error Outcome.abort
        | some root =>
          match root.chain with
          | none => Except.error (Outcome.fail OleError.InvalidEntryChain)
          | some mini_stream_chain =>
            mini_stream_loop o.body mini_stream_chain mini_sector_size count
              size chain 0 []

/-- `Ole::read`. -/
def Ole.read (o : Ole) (entry : Entry) : Res (List Nat) :=
  let entry_size := entry.stream_size
  if entry_size = 0 then Except.error (Outcome.fail OleError.InvalidEntrySize)
  else if entry_size < o.header.mini_stream_cutoff_size then
    o.get_mini_stream_data entry
  else
    o.get_stream_data entry

/-! ### Proof devices

`table_chunks` and `mergeStep` are analysis tools for the
`load_table_sectors` loop (they are not part of the source): the loop
error-checks and decodes the referenced sectors (`table_chunks`) and
folds the decoded chunks into the accumulated table (`mergeStep`, the
`is_some`/`extend` branch of the Rust loop). -/

def mergeStep (acc : Option (List SectorType)) (c : List SectorType) :
    Option (List SectorType) :=
  match acc with
  | some l => some (l ++ c)
  | none => some c

def table_chunks (body : List (List Nat)) (count : Nat) :
    List SectorType → Res (List (List SectorType))
  | [] => Except.ok []
  | SectorType.RegularSect idx :: rest =>
    match body[idx]? with
    | none => Except.error (Outcome.fail OleError.InvalidEntryIndex)
    | some buf =>
      match decode_table_sector count buf with
      | none => Except.error (Outcome.fail OleError.ParseError)
      | some entries =>
        (table_chunks body count rest).map (fun cs => entries :: cs)
  | _ :: rest => table_chunks body count rest

/-- The 8 signature bytes of a CFB header, as written in
`src/header.rs` (`0xD0 0xCF 0x11 0xE0 0xA1 0xB1 0x1A 0xE1`). -/
def header_magic_bytes : Bytes := [0xD0, 0xCF, 0x11, 0xE0, 0xA1, 0xB1, 0x1A, 0xE1]

/-! ### Concrete containers used to settle the claims -/

/-- A well-formed version-3 header value (sector shift 9, mini sector
shift 6, mini-stream cutoff 4096, every chain head `EndOfChain`). -/
def exHeader : Header :=
  { minor_version := MinorVersion.MainVersion,
    major_version := MajorVersion.Version3,
    sector_shift := 9, mini_sector_shift := 6,
    number_of_directory_sectors := 0, number_of_fat_sectors := 0,
    first_directory_sector_location := SectorType.EndOfChain,
    transaction_signature_number := 0, mini_stream_cutoff_size := 4096,
    first_mini_fat_sector_location := SectorType.EndOfChain,
    number_of_mini_fat_sectors := 0,
    first_difat_sector_location := SectorType.EndOfChain,
    number_of_difat_sectors := 0 }

/-- A directory entry with neutral contents, specialised below. -/
def blankEntry : Entry :=
  { name := List.replicate 64 0, name_length := 0,
    object_type := ObjectType.Stream, color := Color.Red,
    left_sibling_id := SectorType.FreeSect,
    right_sibling_id := SectorType.FreeSect,
    child_id := SectorType.FreeSect,
    clsid := List.replicate 16 0, state_bits := 0,
    creation_time := 0, modified_time := 0,
    starting_sector_location := SectorType.RegularSect 0,
    stream_size := 0, chain := none }

/-- C1 input: one 512-byte body sector filled with the byte 9. -/
def oleC1 : Ole :=
  { header := exHeader, version := MajorVersion.Version3,
    difat := [], directory := none, mini_fat := none, fat := none,
    entries := none, body := [List.replicate 512 9] }

/-- C1 input: a stream entry of size 5000 whose precomputed chain has a
single sector — 9 sectors short of the ⌈5000/512⌉ = 10 required. -/
def entryC1 : Entry :=
  { blankEntry with
    stream_size := 5000,
    chain := some [SectorType.RegularSect 0] }

/-- C2 input: root storage whose mini-stream chain is body sector 2. -/
def rootC2 : Entry :=
  { blankEntry with
    object_type := ObjectType.RootStorage,
    starting_sector_location := SectorType.RegularSect 2,
    stream_size := 64,
    chain := some [SectorType.RegularSect 2] }

/-- C2 input: body sector 2 holds the bytes 0,1,…,511. -/
def oleC2 : Ole :=
  { header := exHeader, version := MajorVersion.Version3,
    difat := [], directory := none, mini_fat := none, fat := none,
    entries := some [rootC2],
    body := [List.replicate 512 0, List.replicate 512 0, List.range 512] }

/-- C2 input: a 10-byte stream stored in mini sector 0. -/
def entryC2 : Entry :=
  { blankEntry with
    stream_size := 10,
    chain := some [SectorType.RegularSect 0] }

/-- C4 input: a FAT (and mini FAT) whose sector 0 points to itself —
the canonical cyclic chain. -/
def oleC4 : Ole :=
  { header := exHeader, version := MajorVersion.Version3,
    difat := [], directory := none,
    mini_fat := some [SectorType.RegularSect 0],
    fat := some [SectorType.RegularSect 0],
    entries := none, body := [] }

/-- C5 input: a one-entry FAT, so the regular sector id 7 is out of
range during a chain walk. -/
def oleC5 : Ole :=
  { header := exHeader, version := MajorVersion.Version3,
    difat := [], directory := none, mini_fat := none,
    fat := some [SectorType.EndOfChain],
    entries := none, body := [] }

/-- C6 witness input: empty DIFAT and `number_of_fat_sectors = 0`,
every chain head `EndOfChain` — `parse` succeeds without work. -/
def oleC6 : Ole :=
  { header := exHeader, version := MajorVersion.Version3,
    difat := [], directory := none, mini_fat := none, fat := none,
    entries := none, body := [] }

/-- C6 witness input: `number_of_fat_sectors = 2` against an empty
assembled DIFAT. -/
def oleC6bad : Ole :=
  { oleC6 with header := { exHeader with number_of_fat_sectors := 2 } }

/-- C8 input, body sector 0: a FAT sector marking sector 0 as
`FatSect`, ending the chain of sector 1, all remaining entries free. -/
def fatSectorC8 : Bytes :=
  [0xFD, 0xFF, 0xFF, 0xFF, 0xFE, 0xFF, 0xFF, 0xFF] ++ List.replicate 504 0xFF

/-- C8 input, body sector 1: a directory sector whose first entry
carries the invalid object-type byte 3 at offset 66, so the `binrw`
decode of the whole sector fails. -/
def badDirSectorC8 : Bytes :=
  List.replicate 66 0 ++ [3] ++ List.replicate 445 0

/-- C8 input: directory chain head at body sector 1, FAT from body
sector 0. -/
def oleC8 : Ole :=
  { header :=
      { exHeader with
        number_of_fat_sectors := 1,
        first_directory_sector_location := SectorType.RegularSect 1 },
    version := MajorVersion.Version3,
    difat := [SectorType.RegularSect 0], directory := none,
    mini_fat := none, fat := none, entries := none,
    body := [fatSectorC8, badDirSectorC8] }

/-- C9 input: one FAT sector (body sector 0, 512 bytes of `0xFF`,
decoding to 128 `FreeSect` entries), no DIFAT extension, no mini FAT,
no directory. -/
def oleC9 : Ole :=
  { header := { exHeader with number_of_fat_sectors := 1 },
    version := MajorVersion.Version3,
    difat := [SectorType.RegularSect 0], directory := none,
    mini_fat := none, fat := none, entries := none,
    body := [List.replicate 512 0xFF] }

/-- The FAT produced by the first `parse` of `oleC9`. -/
def fatC9 : List SectorType := List.replicate 128 SectorType.FreeSect

/-- `oleC9` after its first successful `parse`. -/
def oleC9b : Ole := { oleC9 with fat := some fatC9 }

/-- C7 input: a header that is bit-correct except that the mini-stream
cutoff field holds 5 instead of the mandated 4096. -/
def hdrBytesBadCutoff : Bytes :=
  [0xD0, 0xCF, 0x11, 0xE0, 0xA1, 0xB1, 0x1A, 0xE1] ++
  List.replicate 16 0 ++
  [0x3E, 0] ++ [3, 0] ++ [0xFE, 0xFF] ++ [9, 0] ++ [6, 0] ++
  List.replicate 6 0 ++
  [0, 0, 0, 0] ++ [0, 0, 0, 0] ++
  [0xFE, 0xFF, 0xFF, 0xFF] ++
  [0, 0, 0, 0] ++
  [5, 0, 0, 0] ++
  [0xFE, 0xFF, 0xFF, 0xFF] ++ [0, 0, 0, 0] ++
  [0xFE, 0xFF, 0xFF, 0xFF] ++ [0, 0, 0, 0]

/-- C7 input: a full 512-byte version-3 file with the deviant cutoff. -/
def bufC7 : Bytes := hdrBytesBadCutoff ++ List.replicate 436 0xFF

/-- A bit-correct version-4 header: sector shift 12, cutoff 4096, all
chain heads `EndOfChain`, `number_of_fat_sectors = 0`. -/
def hdrBytesV4 : Bytes :=
  [0xD0, 0xCF, 0x11, 0xE0, 0xA1, 0xB1, 0x1A, 0xE1] ++
  List.replicate 16 0 ++
  [0x3E, 0] ++ [4, 0] ++ [0xFE, 0xFF] ++ [12, 0] ++ [6, 0] ++
  List.replicate 6 0 ++
  [0, 0, 0, 0] ++ [0, 0, 0, 0] ++
  [0xFE, 0xFF, 0xFF, 0xFF] ++
  [0, 0, 0, 0] ++
  [0, 0x10, 0, 0] ++
  [0xFE, 0xFF, 0xFF, 0xFF] ++ [0, 0, 0, 0] ++
  [0xFE, 0xFF, 0xFF, 0xFF] ++ [0, 0, 0, 0]

/-- The decoded form of `hdrBytesV4`. -/
def hdrV4val : Header :=
  { minor_version := MinorVersion.MainVersion,
    major_version := MajorVersion.Version4,
    sector_shift := 12, mini_sector_shift := 6,
    number_of_directory_sectors := 0, number_of_fat_sectors := 0,
    first_directory_sector_location := SectorType.EndOfChain,
    transaction_signature_number := 0, mini_stream_cutoff_size := 4096,
    first_mini_fat_sector_location := SectorType.EndOfChain,
    number_of_mini_fat_sectors := 0,
    first_difat_sector_location := SectorType.EndOfChain,
    number_of_difat_sectors := 0 }

/-- C3 input: a 512-byte version-4 file (header, inline DIFAT, no body
bytes at all beyond the header block). -/
def bufC3small : Bytes := hdrBytesV4 ++ List.replicate 436 0xFF

/-- C3 input: a 28673-byte version-4 file; byte 28672 (and nothing
before it past the header) is the value 7. -/
def bufC3big : Bytes :=
  hdrBytesV4 ++ (List.replicate 436 0xFF ++ List.replicate 28161 7)

/-- The container produced by `Ole.from_path bufC3big`. -/
def oleC3 : Ole :=
  { header := hdrV4val, version := MajorVersion.Version4,
    difat := [], directory := none, mini_fat := none, fat := none,
    entries := none,
    body := chunks 4096 (bufC3big.drop 28672) }

/-- C7 input: header bytes 0..29 with every fixed field correct
(magic, CLSID, minor 0x3E, major 3, byte-order mark). -/
def hdrShiftPrefix : Bytes :=
  [0xD0, 0xCF, 0x11, 0xE0, 0xA1, 0xB1, 0x1A, 0xE1] ++
  List.replicate 16 0 ++ [0x3E, 0] ++ [3, 0] ++ [0xFE, 0xFF]

/-- C7 input: header bytes 34..75 with every fixed field correct
(reserved zeros, cutoff 4096, all chain heads `EndOfChain`); bytes
30..33 (the two shift words) are supplied separately. -/
def hdrShiftSuffix : Bytes :=
  List.replicate 6 0 ++
  [0, 0, 0, 0] ++ [0, 0, 0, 0] ++
  [0xFE, 0xFF, 0xFF, 0xFF] ++
  [0, 0, 0, 0] ++
  [0, 0x10, 0, 0] ++
  [0xFE, 0xFF, 0xFF, 0xFF] ++ [0, 0, 0, 0] ++
  [0xFE, 0xFF, 0xFF, 0xFF] ++ [0, 0, 0, 0]

/-! ### Helper lemmas shared by the claim theorems -/

/-- Lemma: `parse_difat` can only change the `difat` field. -/
theorem parse_difat_preserves (fuel : Nat) (o o' : Ole)
    (h : o.parse_difat fuel = Except.ok o') :
    o'.header = o.header ∧ o'.body = o.body ∧ o'.fat = o.fat ∧
    o'.version = o.version ∧ o'.mini_fat = o.mini_fat ∧ o'.entries = o.entries := by
  unfold Ole.parse_difat at h
  dsimp only [] at h
  split at h
  · split at h
    · exact absurd h (by simp)
    · injection h with h2
      subst h2
      exact ⟨rfl, rfl, rfl, rfl, rfl, rfl⟩
  · injection h with h2
    subst h2
    exact ⟨rfl, rfl, rfl, rfl, rfl, rfl⟩

/-- Lemma: a successful `parse_fat` changes only the `fat` field, and
its guard forces `number_of_fat_sectors = |difat|`. -/
theorem parse_fat_preserves (o o' : Ole) (h : o.parse_fat = Except.ok o') :
    o'.header = o.header ∧ o'.body = o.body ∧ o'.difat = o.difat ∧
    o'.version = o.version ∧ o'.mini_fat = o.mini_fat ∧ o'.entries = o.entries ∧
    o.header.number_of_fat_sectors = o.difat.length := by
  unfold Ole.parse_fat at h
  dsimp only [] at h
  split at h
  · exact absurd h (by simp)
  · rename_i hguard
    split at h
    · exact absurd h (by simp)
    · injection h with h2
      subst h2
      exact ⟨rfl, rfl, rfl, rfl, rfl, rfl, by omega⟩

/-- Lemma: `parse_mini_fat` can only change the `mini_fat` field. -/
theorem parse_mini_fat_preserves (fuel : Nat) (o o' : Ole)
    (h : o.parse_mini_fat fuel = Except.ok o') :
    o'.header = o.header ∧ o'.body = o.body ∧ o'.difat = o.difat ∧
    o'.version = o.version ∧ o'.fat = o.fat ∧ o'.entries = o.entries := by
  unfold Ole.parse_mini_fat at h
  dsimp only [] at h
  split at h
  · split at h
    · exact absurd h (by simp)
    · split at h
      · exact absurd h (by simp)
      · injection h with h2
        subst h2
        exact ⟨rfl, rfl, rfl, rfl, rfl, rfl⟩
  · injection h with h2
    subst h2
    exact ⟨rfl, rfl, rfl, rfl, rfl, rfl⟩

/-- Lemma: `parse_directory` can only change the `entries` field. -/
theorem parse_directory_preserves (fuel : Nat) (o o' : Ole)
    (h : o.parse_directory fuel = Except.ok o') :
    o'.header = o.header ∧ o'.body = o.body ∧ o'.difat = o.difat ∧
    o'.version = o.version ∧ o'.fat = o.fat ∧ o'.mini_fat = o.mini_fat := by
  unfold Ole.parse_directory at h
  dsimp only [] at h
  split at h
  · split at h
    · exact absurd h (by simp)
    · split at h
      · exact absurd h (by simp)
      · injection h with h2
        subst h2
        exact ⟨rfl, rfl, rfl, rfl, rfl, rfl⟩
  · injection h with h2
    subst h2
    exact ⟨rfl, rfl, rfl, rfl, rfl, rfl⟩

/-- Lemma: the table-loading loop is the error-checked decode of the
referenced sectors (`table_chunks`) folded onto the accumulator. -/
theorem load_table_sectors_eq (body : List (List Nat)) (count : Nat) :
    ∀ (seq : List SectorType) (acc : Option (List SectorType)),
      load_table_sectors body count seq acc =
        (table_chunks body count seq).map (fun cs => cs.foldl mergeStep acc) := by
  intro seq
  induction seq with
  | nil => intro acc; rfl
  | cons s rest ih =>
    intro acc
    cases s with
    | RegularSect idx =>
      simp only [load_table_sectors, table_chunks]
      cases hb : body[idx]? with
      | none => rfl
      | some buf =>
        cases hd : decode_table_sector count buf with
        | none => simp [hd, Except.map]
        | some entries =>
          cases hc : table_chunks body count rest with
          | error e =>
            cases acc <;> simp [ih, hc, hd, Except.map]
          | ok cs =>
            cases acc <;> simp [ih, hc, hd, Except.map, mergeStep]
    | MaxRegSect => exact ih acc
    | NotApplicable => exact ih acc
    | DifSect => exact ih acc
    | FatSect => exact ih acc
    | EndOfChain => exact ih acc
    | FreeSect => exact ih acc

/-- Lemma: folding decoded chunks onto a present accumulator appends
their concatenation. -/
theorem foldl_mergeStep_some (cs : List (List SectorType)) :
    ∀ a, cs.foldl mergeStep (some a) = some (a ++ cs.flatten) := by
  induction cs with
  | nil => intro a; simp
  | cons c rest ih =>
    intro a
    simp [List.foldl, mergeStep, ih, List.append_assoc]

/-- Lemma: folding at least one decoded chunk onto an absent
accumulator yields their concatenation. -/
theorem foldl_mergeStep_none (c : List SectorType)
    (rest : List (List SectorType)) :
    (c :: rest).foldl mergeStep none = some ((c :: rest).flatten) := by
  simp [List.foldl, mergeStep, foldl_mergeStep_some]

/-- Lemma: a non-regular DIFAT head makes `parse_difat` the identity. -/
theorem parse_difat_skip (fuel : Nat) (o : Ole)
    (h : o.header.first_difat_sector_location.isRegular = false) :
    o.parse_difat fuel = Except.ok o := by
  unfold Ole.parse_difat
  dsimp only []
  split
  · rename_i v hv
    rw [hv] at h
    simp [SectorType.isRegular] at h
  · rfl

/-- Lemma: a non-regular mini-FAT head makes `parse_mini_fat` the
identity. -/
theorem parse_mini_fat_skip (fuel : Nat) (o : Ole)
    (h : o.header.first_mini_fat_sector_location.isRegular = false) :
    o.parse_mini_fat fuel = Except.ok o := by
  unfold Ole.parse_mini_fat
  dsimp only []
  split
  · rename_i v hv
    rw [hv] at h
    simp [SectorType.isRegular] at h
  · rfl

/-- Lemma: a non-regular directory head makes `parse_directory` the
identity. -/
theorem parse_directory_skip (fuel : Nat) (o : Ole)
    (h : o.header.first_directory_sector_location.isRegular = false) :
    o.parse_directory fuel = Except.ok o := by
  unfold Ole.parse_directory
  dsimp only []
  split
  · rename_i v hv
    rw [hv] at h
    simp [SectorType.isRegular] at h
  · rfl

/-- Lemma: when the DIFAT, mini-FAT and directory heads are all
non-regular, `parse` reduces to `parse_fat`. -/
theorem parse_eq_parse_fat (fuel : Nat) (o : Ole)
    (h1 : o.header.first_difat_sector_location.isRegular = false)
    (h2 : o.header.first_mini_fat_sector_location.isRegular = false)
    (h3 : o.header.first_directory_sector_location.isRegular = false) :
    o.parse fuel = o.parse_fat := by
  unfold Ole.parse
  rw [parse_difat_skip fuel o h1]
  dsimp only []
  cases hf : o.parse_fat with
  | error e => rfl
  | ok o2 =>
    obtain ⟨fh, -, -, -, -, -, -⟩ := parse_fat_preserves o o2 hf
    have h2' : o2.header.first_mini_fat_sector_location.isRegular = false := by
      rw [fh]; exact h2
    have h3' : o2.header.first_directory_sector_location.isRegular = false := by
      rw [fh]; exact h3
    dsimp only []
    rw [parse_mini_fat_skip fuel o2 h2']
    exact parse_directory_skip fuel o2 h3'

/-! ### The claims -/

/-- C1: the claim says a successful `read` returns exactly
`stream_size` bytes and that a chain too short to supply them fails
with `InvalidEntryChain`.  The code has no such check: on `entryC1`
(stream size 5000, chain of one 512-byte sector) `read` succeeds and
returns a 512-byte buffer. -/
theorem C1_short_chain_read :
    oleC1.read entryC1 = Except.ok (List.replicate 512 9) ∧
    (List.replicate 512 9).length ≠ entryC1.stream_size :=
  ⟨rfl, by decide⟩

/-- C2: the claim says a mini-FAT read copies
`min(64, stream_size − copied)` bytes from body sector `k` at offset
`(m mod fanout) * 64`.  On `entryC2` (a 10-byte stream in mini sector
0, root chain `[Regular 2]`, body sector 2 holding bytes 0,1,…,511)
that prescribes bytes 0..9; the code instead uses
`mini_sector_shift = 6` as the mini sector size and `k * 6` as the
offset, returning the six bytes 12..17. -/
theorem C2_mini_read :
    oleC2.read entryC2 = Except.ok [12, 13, 14, 15, 16, 17] ∧
    [12, 13, 14, 15, 16, 17] ≠ (List.range 512).take (min 64 10) :=
  ⟨rfl, by decide⟩

/-- C3: the claim says the version-4 body begins at file offset 4096.
The code computes `relative_pos = (4096 − 512) * 8 = 28672`: a 512-byte
v4 file panics on the slice `&buf[28672..]`, and a 28673-byte v4 file
gets a body carved from offset 28672, which differs from the bytes
from offset 4096. -/
theorem C3_v4_body_offset :
    Ole.from_path bufC3small = Except.error Outcome.abort ∧
    Ole.from_path bufC3big = Except.ok oleC3 ∧
    bufC3big.drop 28672 ≠ bufC3big.drop 4096 := by
  have h76 : hdrBytesV4.length = 76 := by decide
  have h436 : (List.replicate 436 0xFF : Bytes).length = 436 :=
    List.length_replicate 436 0xFF
  have hlen : bufC3big.length = 28673 := by
    rw [show bufC3big =
          hdrBytesV4 ++ (List.replicate 436 0xFF ++ List.replicate 28161 7) from rfl,
        List.length_append, List.length_append, List.length_replicate,
        List.length_replicate, h76]
  refine ⟨rfl, ?_, ?_⟩
  · have htake : bufC3big.take 76 = hdrBytesV4 := List.take_left' h76
    have hdrop : bufC3big.drop 76 =
        List.replicate 436 0xFF ++ List.replicate 28161 7 := List.drop_left' h76
    have htake2 : (bufC3big.drop 76).take 436 = List.replicate 436 0xFF := by
      rw [hdrop]; exact List.take_left' h436
    have hdec : decode_header hdrBytesV4 = Except.ok hdrV4val := rfl
    have hdifat : decode_all_difat (List.replicate 436 0xFF) =
        some (List.replicate 109 SectorType.FreeSect) := rfl
    have hvalid : get_valid_entries (List.replicate 109 SectorType.FreeSect) = [] := by
      decide
    unfold Ole.from_path
    rw [hlen, htake, hdec, htake2, hdifat]
    simp only [hvalid, get_sector_size,
      show hdrV4val.major_version = MajorVersion.Version4 from rfl]
    simp [oleC3]
  · intro hdd
    have hL := congrArg List.length hdd
    rw [List.length_drop, List.length_drop, hlen] at hL
    omega

/-- C4: the claim says a chain walk terminates after at most `|table|`
iterations and reports a cyclic chain with `InvalidEntryChain`.  On the
one-entry cyclic table of `oleC4` (sector 0 points to itself) both the
FAT walk and the mini-FAT walk run out of any amount of fuel: the Rust
`while let` loops forever and no `InvalidEntryChain` is ever
produced. -/
theorem C4_cyclic_chain_walk_diverges :
    ∀ fuel : Nat,
      oleC4.get_fat_chain fuel (SectorType.RegularSect 0) =
        Except.error Outcome.fuelOut ∧
      oleC4.get_mini_fat_chain fuel (SectorType.RegularSect 0) =
        Except.error Outcome.fuelOut := by
  have hwalk : ∀ f : Nat,
      chain_walk [SectorType.RegularSect 0] f (SectorType.RegularSect 0) =
        Except.error Outcome.fuelOut := by
    intro f
    induction f with
    | zero => rfl
    | succ n ih => simp [chain_walk, ih, Except.map]
  intro fuel
  constructor
  · show chain_walk [SectorType.RegularSect 0] fuel (SectorType.RegularSect 0) = _
    exact hwalk fuel
  · show chain_walk [SectorType.RegularSect 0] fuel (SectorType.RegularSect 0) = _
    exact hwalk fuel

/-- C5: the claim says every out-of-range sector reference is reported
as a typed error and no operation panics.  Walking from the regular id
7 over the one-entry FAT of `oleC5`, the Rust code indexes
`fat[7]` with the panicking `[]` operator: the model aborts instead of
returning `InvalidEntryIndex` or `InvalidEntryChain`. -/
theorem C5_oob_chain_walk_aborts :
    oleC5.get_fat_chain 5 (SectorType.RegularSect 7) =
      Except.error Outcome.abort ∧
    Outcome.abort ≠ Outcome.fail OleError.InvalidEntryIndex ∧
    Outcome.abort ≠ Outcome.fail OleError.InvalidEntryChain :=
  ⟨rfl, by decide, by decide⟩

/-- C6: if `parse` succeeds the assembled DIFAT length equals
`header.number_of_fat_sectors`, and a mismatch makes `parse_fat` fail
with `InvalidDifat` before its sector-loading loop runs (the error is
returned ahead of any body-sector access). -/
theorem C6_difat_length_guard :
    (∀ (fuel : Nat) (o o' : Ole), o.parse fuel = Except.ok o' →
      o'.difat.length = o'.header.number_of_fat_sectors) ∧
    (∀ o : Ole, o.header.number_of_fat_sectors ≠ o.difat.length →
      o.parse_fat = Except.error (Outcome.fail OleError.InvalidDifat)) := by
  constructor
  · intro fuel o o' h
    unfold Ole.parse at h
    split at h
    · exact absurd h (by simp)
    · rename_i o1 h1
      split at h
      · exact absurd h (by simp)
      · rename_i o2 h2
        split at h
        · exact absurd h (by simp)
        · rename_i o3 h3
          obtain ⟨f1, f2, f3, f4, f5, f6, hg⟩ := parse_fat_preserves o1 o2 h2
          obtain ⟨m1, m2, m3, m4, m5, m6⟩ := parse_mini_fat_preserves fuel o2 o3 h3
          obtain ⟨d1, d2, d3, d4, d5, d6⟩ := parse_directory_preserves fuel o3 o' h
          rw [d3, d1, m3, m1, f1, f3]
          omega
  · intro o hne
    unfold Ole.parse_fat
    dsimp only []
    rw [if_pos hne]

/-- C6 witness: `oleC6` parses successfully and satisfies the length
invariant; `oleC6bad` (2 announced FAT sectors, empty DIFAT) fails with
`InvalidDifat`. -/
theorem C6_difat_length_guard_witness :
    oleC6.difat.length = oleC6.header.number_of_fat_sectors ∧
    oleC6bad.parse_fat = Except.error (Outcome.fail OleError.InvalidDifat) :=
  ⟨C6_difat_length_guard.1 0 oleC6 oleC6 rfl,
   C6_difat_length_guard.2 oleC6bad (by decide)⟩

/-- C7 counterexample: the claim says opening fails with
`InvalidFileFormat` whenever (among others) the mini-stream cutoff
deviates from the prescribed 4096.  `bufC7` carries cutoff 5 and yet
`from_path` succeeds: the field is read as a plain integer and never
validated. -/
theorem C7_counterexample :
    ∃ o, Ole.from_path bufC7 = Except.ok o ∧
      o.header.mini_stream_cutoff_size = 5 :=
  ⟨_, rfl, rfl⟩

/-- Lemma: a `read_u16` that returned the value `c0 + 256*c1` with
`c0 < 256` read exactly the bytes `c0, c1`. -/
theorem u16_fixed_bytes (c0 c1 : Nat) (hc0 : c0 < 256) (b rest : Bytes)
    (hbound : ∀ x ∈ b, x < 256)
    (h : read_u16 b = some (c0 + 256 * c1, rest)) :
    b.take 2 = [c0, c1] ∧ b.drop 2 = rest := by
  rcases b with _ | ⟨y0, _ | ⟨y1, t⟩⟩
  · rw [show read_u16 ([] : Bytes) = none from rfl] at h
    exact Option.noConfusion h
  · rw [show read_u16 [y0] = none from rfl] at h
    exact Option.noConfusion h
  · rw [show read_u16 (y0 :: y1 :: t) = some (y0 + 256 * y1, t) from rfl] at h
    simp only [Option.some.injEq, Prod.mk.injEq] at h
    obtain ⟨hv, ht⟩ := h
    have hy0 : y0 < 256 := hbound y0 (by simp)
    obtain ⟨e0, e1⟩ : y0 = c0 ∧ y1 = c1 := by omega
    subst e0
    subst e1
    exact ⟨rfl, by rw [show List.drop 2 (y0 :: y1 :: t) = t from rfl, ht]⟩

/-- Lemma: `read_u16` consumes two bytes. -/
theorem u16_drop_bytes (v : Nat) (b rest : Bytes)
    (h : read_u16 b = some (v, rest)) : b.drop 2 = rest := by
  rcases b with _ | ⟨y0, _ | ⟨y1, t⟩⟩
  · rw [show read_u16 ([] : Bytes) = none from rfl] at h
    exact Option.noConfusion h
  · rw [show read_u16 [y0] = none from rfl] at h
    exact Option.noConfusion h
  · rw [show read_u16 (y0 :: y1 :: t) = some (y0 + 256 * y1, t) from rfl] at h
    simp only [Option.some.injEq, Prod.mk.injEq] at h
    rw [show List.drop 2 (y0 :: y1 :: t) = t from rfl, h.2]

/-- Lemma: reading the header-magic `u64` forces the 8 signature
bytes. -/
theorem magic_fixed_bytes (b rest : Bytes)
    (hbound : ∀ x ∈ b, x < 256)
    (h : read_u64 b = some (0xE11AB1A1E011CFD0, rest)) :
    b.take 8 = header_magic_bytes ∧ b.drop 8 = rest := by
  rcases b with _ | ⟨y0, _ | ⟨y1, _ | ⟨y2, _ | ⟨y3, _ | ⟨y4, _ | ⟨y5, _ | ⟨y6, _ | ⟨y7, t⟩⟩⟩⟩⟩⟩⟩⟩
  · rw [show read_u64 ([] : Bytes) = none from rfl] at h
    exact Option.noConfusion h
  · rw [show read_u64 [y0] = none from rfl] at h
    exact Option.noConfusion h
  · rw [show read_u64 [y0, y1] = none from rfl] at h
    exact Option.noConfusion h
  · rw [show read_u64 [y0, y1, y2] = none from rfl] at h
    exact Option.noConfusion h
  · rw [show read_u64 [y0, y1, y2, y3] = none from rfl] at h
    exact Option.noConfusion h
  · rw [show read_u64 [y0, y1, y2, y3, y4] = none from rfl] at h
    exact Option.noConfusion h
  · rw [show read_u64 [y0, y1, y2, y3, y4, y5] = none from rfl] at h
    exact Option.noConfusion h
  · rw [show read_u64 [y0, y1, y2, y3, y4, y5, y6] = none from rfl] at h
    exact Option.noConfusion h
  · rw [show read_u64 (y0 :: y1 :: y2 :: y3 :: y4 :: y5 :: y6 :: y7 :: t) =
        some (y0 + 256 * y1 + 65536 * (y2 + 256 * y3) + 4294967296 * (y4 + 256 * y5 + 65536 * (y6 + 256 * y7)), t) from rfl] at h
    simp only [Option.some.injEq, Prod.mk.injEq] at h
    obtain ⟨hv, ht⟩ := h
    have hy0 : y0 < 256 := hbound y0 (by simp)
    have hy1 : y1 < 256 := hbound y1 (by simp)
    have hy2 : y2 < 256 := hbound y2 (by simp)
    have hy3 : y3 < 256 := hbound y3 (by simp)
    have hy4 : y4 < 256 := hbound y4 (by simp)
    have hy5 : y5 < 256 := hbound y5 (by simp)
    have hy6 : y6 < 256 := hbound y6 (by simp)
    have hy7 : y7 < 256 := hbound y7 (by simp)
    obtain ⟨e0, e1, e2, e3, e4, e5, e6, e7⟩ :
        y0 = 0xD0 ∧ y1 = 0xCF ∧ y2 = 0x11 ∧ y3 = 0xE0 ∧
        y4 = 0xA1 ∧ y5 = 0xB1 ∧ y6 = 0x1A ∧ y7 = 0xE1 := by omega
    subst e0; subst e1; subst e2; subst e3; subst e4; subst e5; subst e6; subst e7
    refine ⟨rfl, ?_⟩
    rw [show List.drop 8 (208 :: 207 :: 17 :: 224 :: 161 :: 177 :: 26 :: 225 :: t) = t from rfl, ht]

/-- Lemma: reading the CLSID `u128` as zero forces 16 zero bytes (no
byte bounds needed: a sum of non-negative terms is zero only if every
term is). -/
theorem clsid_zero_bytes (b rest : Bytes)
    (h : read_u128 b = some (0, rest)) :
    b.take 16 = List.replicate 16 0 ∧ b.drop 16 = rest := by
  rcases b with _ | ⟨y0, _ | ⟨y1, _ | ⟨y2, _ | ⟨y3, _ | ⟨y4, _ | ⟨y5, _ | ⟨y6, _ | ⟨y7, _ | ⟨y8, _ | ⟨y9, _ | ⟨y10, _ | ⟨y11, _ | ⟨y12, _ | ⟨y13, _ | ⟨y14, _ | ⟨y15, t⟩⟩⟩⟩⟩⟩⟩⟩⟩⟩⟩⟩⟩⟩⟩⟩
  · rw [show read_u128 ([] : Bytes) = none from rfl] at h
    exact Option.noConfusion h
  · rw [show read_u128 [y0] = none from rfl] at h
    exact Option.noConfusion h
  · rw [show read_u128 [y0, y1] = none from rfl] at h
    exact Option.noConfusion h
  · rw [show read_u128 [y0, y1, y2] = none from rfl] at h
    exact Option.noConfusion h
  · rw [show read_u128 [y0, y1, y2, y3] = none from rfl] at h
    exact Option.noConfusion h
  · rw [show read_u128 [y0, y1, y2, y3, y4] = none from rfl] at h
    exact Option.noConfusion h
  · rw [show read_u128 [y0, y1, y2, y3, y4, y5] = none from rfl] at h
    exact Option.noConfusion h
  · rw [show read_u128 [y0, y1, y2, y3, y4, y5, y6] = none from rfl] at h
    exact Option.noConfusion h
  · rw [show read_u128 [y0, y1, y2, y3, y4, y5, y6, y7] = none from rfl] at h
    exact Option.noConfusion h
  · rw [show read_u128 [y0, y1, y2, y3, y4, y5, y6, y7, y8] = none from rfl] at h
    exact Option.noConfusion h
  · rw [show read_u128 [y0, y1, y2, y3, y4, y5, y6, y7, y8, y9] = none from rfl] at h
    exact Option.noConfusion h
  · rw [show read_u128 [y0, y1, y2, y3, y4, y5, y6, y7, y8, y9, y10] = none from rfl] at h
    exact Option.noConfusion h
  · rw [show read_u128 [y0, y1, y2, y3, y4, y5, y6, y7, y8, y9, y10, y11] = none from rfl] at h
    exact Option.noConfusion h
  · rw [show read_u128 [y0, y1, y2, y3, y4, y5, y6, y7, y8, y9, y10, y11, y12] = none from rfl] at h
    exact Option.noConfusion h
  · rw [show read_u128 [y0, y1, y2, y3, y4, y5, y6, y7, y8, y9, y10, y11, y12, y13] = none from rfl] at h
    exact Option.noConfusion h
  · rw [show read_u128 [y0, y1, y2, y3, y4, y5, y6, y7, y8, y9, y10, y11, y12, y13, y14] = none from rfl] at h
    exact Option.noConfusion h
  · rw [show read_u128 (y0 :: y1 :: y2 :: y3 :: y4 :: y5 :: y6 :: y7 :: y8 :: y9 :: y10 :: y11 :: y12 :: y13 :: y14 :: y15 :: t) =
        some (y0 + 256 * y1 + 65536 * (y2 + 256 * y3) + 4294967296 * (y4 + 256 * y5 + 65536 * (y6 + 256 * y7)) + 18446744073709551616 * (y8 + 256 * y9 + 65536 * (y10 + 256 * y11) + 4294967296 * (y12 + 256 * y13 + 65536 * (y14 + 256 * y15))), t) from rfl] at h
    simp only [Option.some.injEq, Prod.mk.injEq] at h
    obtain ⟨hv, ht⟩ := h
    obtain ⟨e0, e1, e2, e3, e4, e5, e6, e7, e8, e9, e10, e11, e12, e13, e14, e15⟩ :
        y0 = 0 ∧ y1 = 0 ∧ y2 = 0 ∧ y3 = 0 ∧ y4 = 0 ∧ y5 = 0 ∧ y6 = 0 ∧ y7 = 0 ∧ y8 = 0 ∧ y9 = 0 ∧ y10 = 0 ∧ y11 = 0 ∧ y12 = 0 ∧ y13 = 0 ∧ y14 = 0 ∧ y15 = 0 := by omega
    subst e0; subst e1; subst e2; subst e3; subst e4; subst e5; subst e6; subst e7; subst e8; subst e9; subst e10; subst e11; subst e12; subst e13; subst e14; subst e15
    refine ⟨rfl, ?_⟩
    rw [show List.drop 16 (0 :: 0 :: 0 :: 0 :: 0 :: 0 :: 0 :: 0 :: 0 :: 0 :: 0 :: 0 :: 0 :: 0 :: 0 :: 0 :: t) = t from rfl, ht]

/-- Lemma: a `read_bytes 6` returning the six reserved zeros pins the
next 6 bytes. -/
theorem reserved_zero_bytes (b rest : Bytes)
    (h : read_bytes 6 b = some (List.replicate 6 0, rest)) :
    b.take 6 = List.replicate 6 0 ∧ b.drop 6 = rest := by
  unfold read_bytes at h
  split at h
  · simp only [Option.some.injEq, Prod.mk.injEq] at h
    exact ⟨h.1, h.2⟩
  · exact Option.noConfusion h

/-- Lemma: a successful `decode_header_opt` passes, in order, the
magic, CLSID, minor-version, major-version (3 or 4), byte-order-mark
and reserved-bytes checks of the `binrw` layout. -/
theorem decode_header_opt_shape (b : Bytes) (hdr : Header)
    (hopt0 : decode_header_opt b = some hdr) :
    ∃ (b1 b2 b3 b4 b5 b6 b7 b8 : Bytes) (maj ss ms : Nat),
      read_u64 b = some (0xE11AB1A1E011CFD0, b1) ∧
      read_u128 b1 = some (0, b2) ∧
      read_u16 b2 = some (0x3E, b3) ∧
      read_u16 b3 = some (maj, b4) ∧
      (maj = 3 ∨ maj = 4) ∧
      read_u16 b4 = some (0xFFFE, b5) ∧
      read_u16 b5 = some (ss, b6) ∧
      read_u16 b6 = some (ms, b7) ∧
      read_bytes 6 b7 = some (List.replicate 6 0, b8) := by
  have hopt := hopt0
  clear hopt0
  unfold decode_header_opt at hopt
  split at hopt
  · exact Option.noConfusion hopt
  rename_i magic b1 heq0
  split at hopt
  · exact Option.noConfusion hopt
  rename_i hmagic
  split at hopt
  · exact Option.noConfusion hopt
  rename_i clsid b2 heq1
  split at hopt
  · exact Option.noConfusion hopt
  rename_i hclsid
  split at hopt
  · exact Option.noConfusion hopt
  rename_i minor b3 heq2
  split at hopt
  · exact Option.noConfusion hopt
  rename_i hminor
  split at hopt
  · exact Option.noConfusion hopt
  rename_i maj b4 heq3
  split at hopt
  · exact Option.noConfusion hopt
  rename_i mv heqM
  split at hopt
  · exact Option.noConfusion hopt
  rename_i bom b5 heq4
  split at hopt
  · exact Option.noConfusion hopt
  rename_i hbom
  split at hopt
  · exact Option.noConfusion hopt
  rename_i ss b6 heq5
  split at hopt
  · exact Option.noConfusion hopt
  rename_i ms b7 heq6
  split at hopt
  · exact Option.noConfusion hopt
  rename_i reserved b8 heq7
  split at hopt
  · exact Option.noConfusion hopt
  rename_i hres
  clear hopt
  simp only [ne_eq, not_not] at hmagic hclsid hminor hbom hres
  rw [hmagic] at heq0
  rw [hclsid] at heq1
  rw [hminor] at heq2
  rw [hbom] at heq4
  rw [hres] at heq7
  have hmaj : maj = 3 ∨ maj = 4 := by
    by_contra hcon
    push_neg at hcon
    rw [if_neg hcon.1, if_neg hcon.2] at heqM
    exact Option.noConfusion heqM
  exact ⟨b1, b2, b3, b4, b5, b6, b7, b8, maj, ss, ms,
    heq0, heq1, heq2, heq3, hmaj, heq4, heq5, heq6, heq7⟩

/-- Lemma: on byte-valued input, a successful header decode forces the
fixed regions of the first 40 bytes: magic at 0..7, zero CLSID at
8..23, minor version `0x003E` at 24..25, major version 3 or 4 at
26..27, byte-order mark `0xFFFE` at 28..29 and six reserved zeros at
34..39.  (Bytes 30..33, the two shift words, are unconstrained.) -/
theorem decode_header_ok_regions (b : Bytes) (hdr : Header)
    (hbound : ∀ x ∈ b, x < 256)
    (hok : decode_header b = Except.ok hdr) :
    b.take 8 = header_magic_bytes ∧
    (b.drop 8).take 16 = List.replicate 16 0 ∧
    (b.drop 24).take 2 = [0x3E, 0] ∧
    ((b.drop 26).take 2 = [3, 0] ∨ (b.drop 26).take 2 = [4, 0]) ∧
    (b.drop 28).take 2 = [0xFE, 0xFF] ∧
    (b.drop 34).take 6 = List.replicate 6 0 := by
  have hopt : decode_header_opt b = some hdr := by
    unfold decode_header at hok
    split at hok
    · exact Except.noConfusion hok
    · rename_i h' heq'
      injection hok with hh
      rw [hh] at heq'
      exact heq'
  obtain ⟨b1, b2, b3, b4, b5, b6, b7, b8, maj, ss, ms,
    heq0, heq1, heq2, heq3, hmaj, heq4, heq5, heq6, heq7⟩ :=
    decode_header_opt_shape b hdr hopt
  have hbsub : ∀ n : Nat, ∀ x ∈ b.drop n, x < 256 := fun n x hx =>
    hbound x (List.mem_of_mem_drop hx)
  obtain ⟨ht8, hd8⟩ := magic_fixed_bytes b b1 hbound heq0
  obtain ⟨ht16, hd16⟩ := clsid_zero_bytes b1 b2 heq1
  have hb24 : b.drop 24 = b2 := by
    rw [← List.drop_drop 16 8 b, hd8, hd16]
  have hbound2 : ∀ x ∈ b2, x < 256 := by
    rw [← hb24]; exact hbsub 24
  obtain ⟨ht2m, hd2m⟩ := u16_fixed_bytes 0x3E 0 (by norm_num) b2 b3 hbound2
    (by rw [heq2])
  have hb26 : b.drop 26 = b3 := by
    rw [← List.drop_drop 2 24 b, hb24, hd2m]
  have hbound3 : ∀ x ∈ b3, x < 256 := by
    rw [← hb26]; exact hbsub 26
  have hd2maj : b3.drop 2 = b4 := u16_drop_bytes maj b3 b4 heq3
  have hb28 : b.drop 28 = b4 := by
    rw [← List.drop_drop 2 26 b, hb26, hd2maj]
  have hbound4 : ∀ x ∈ b4, x < 256 := by
    rw [← hb28]; exact hbsub 28
  obtain ⟨ht2b, hd2b⟩ := u16_fixed_bytes 0xFE 0xFF (by norm_num) b4 b5 hbound4
    (by rw [heq4])
  have hb30 : b.drop 30 = b5 := by
    rw [← List.drop_drop 2 28 b, hb28, hd2b]
  have hd2s : b5.drop 2 = b6 := u16_drop_bytes ss b5 b6 heq5
  have hb32 : b.drop 32 = b6 := by
    rw [← List.drop_drop 2 30 b, hb30, hd2s]
  have hd2t : b6.drop 2 = b7 := u16_drop_bytes ms b6 b7 heq6
  have hb34 : b.drop 34 = b7 := by
    rw [← List.drop_drop 2 32 b, hb32, hd2t]
  obtain ⟨ht6r, hd6r⟩ := reserved_zero_bytes b7 b8 heq7
  refine ⟨ht8, ?_, ?_, ?_, ?_, ?_⟩
  · rw [hd8]
    exact ht16
  · rw [hb24]
    exact ht2m
  · rcases hmaj with rfl | rfl
    · left
      rw [hb26]
      exact (u16_fixed_bytes 3 0 (by norm_num) b3 b4 hbound3
        (by rw [heq3])).1
    · right
      rw [hb26]
      exact (u16_fixed_bytes 4 0 (by norm_num) b3 b4 hbound3
        (by rw [heq3])).1
  · rw [hb28]
    exact ht2b
  · rw [hb34]
    exact ht6r

/-- C7 (amended): `decode_header` either succeeds or fails with the
`ParseError` kind — `InvalidFileFormat` is never produced; a success on
byte-valued input forces the magic, CLSID, minor version, major
version, byte-order mark and reserved bytes to their fixed values (so
any deviation there makes the open fail, with `ParseError`); and the
sector shift and mini sector shift words are accepted with arbitrary
values (they are plain `u16` reads).  `C7_counterexample` shows the
mini-stream cutoff is likewise unvalidated. -/
theorem C7_header_error_kind :
    (∀ b : Bytes, (∃ h, decode_header b = Except.ok h) ∨
      decode_header b = Except.error (Outcome.fail OleError.ParseError)) ∧
    (∀ (b : Bytes) (hdr : Header), (∀ x ∈ b, x < 256) →
      decode_header b = Except.ok hdr →
      b.take 8 = header_magic_bytes ∧
      (b.drop 8).take 16 = List.replicate 16 0 ∧
      (b.drop 24).take 2 = [0x3E, 0] ∧
      ((b.drop 26).take 2 = [3, 0] ∨ (b.drop 26).take 2 = [4, 0]) ∧
      (b.drop 28).take 2 = [0xFE, 0xFF] ∧
      (b.drop 34).take 6 = List.replicate 6 0) ∧
    (∀ s0 s1 m0 m1 : Nat,
      decode_header (hdrShiftPrefix ++ s0 :: s1 :: m0 :: m1 :: hdrShiftSuffix) =
        Except.ok { exHeader with sector_shift := s0 + 256 * s1,
                                  mini_sector_shift := m0 + 256 * m1 }) := by
  refine ⟨?_, decode_header_ok_regions, fun s0 s1 m0 m1 => rfl⟩
  intro b
  unfold decode_header
  cases hopt : decode_header_opt b with
  | none => exact Or.inr rfl
  | some h => exact Or.inl ⟨h, rfl⟩

/-- C7 witness: the bad-cutoff header decodes successfully, so the
fixed-region characterisation applies to it (magic and reserved bytes
shown); and the shift words 7 and 13 are accepted. -/
theorem C7_header_error_kind_witness :
    hdrBytesBadCutoff.take 8 = header_magic_bytes ∧
    (hdrBytesBadCutoff.drop 34).take 6 = List.replicate 6 0 ∧
    decode_header (hdrShiftPrefix ++ 7 :: 0 :: 13 :: 0 :: hdrShiftSuffix) =
      Except.ok { exHeader with sector_shift := 7, mini_sector_shift := 13 } :=
  ⟨(C7_header_error_kind.2.1 hdrBytesBadCutoff
      { exHeader with mini_stream_cutoff_size := 5 } (by decide) rfl).1,
   (C7_header_error_kind.2.1 hdrBytesBadCutoff
      { exHeader with mini_stream_cutoff_size := 5 } (by decide) rfl).2.2.2.2.2,
   C7_header_error_kind.2.2 7 0 13 0⟩

/-- C8: the claim says a decode error inside a directory sector makes
`parse` fail with a typed error and never silently truncates the
directory.  `oleC8`'s only directory sector carries an invalid
object-type byte; `parse` nevertheless succeeds, with the sector's
entries silently dropped (`entries = some []`). -/
theorem C8_bad_directory_sector_skipped :
    ∃ o', oleC8.parse 10 = Except.ok o' ∧ o'.entries = some [] :=
  ⟨_, rfl, rfl⟩

/-- C9 counterexample: the claim says a second `parse` leaves the state
identical.  After `oleC9.parse` succeeds (producing `oleC9b`, whose FAT
has 128 entries), parsing `oleC9b` again does not reproduce `oleC9b`:
the FAT is extended to 256 entries. -/
theorem C9_counterexample :
    oleC9.parse 1 = Except.ok oleC9b ∧
    oleC9b.parse 1 ≠ Except.ok oleC9b := by
  refine ⟨rfl, ?_⟩
  intro h
  have hcomp : oleC9b.parse 1 =
      Except.ok { oleC9 with fat := some (fatC9 ++ fatC9) } := rfl
  rw [hcomp] at h
  have h2 := Except.ok.inj h
  have h3 := congrArg Ole.fat h2
  simp only [] at h3
  exact absurd h3 (by decide)

/-- C9 (amended): `parse` is not idempotent.  On a container whose
DIFAT, mini-FAT and directory heads are non-regular (so only the FAT
stage does work) and whose first parse succeeded with a non-empty FAT
`l`, a second `parse` succeeds but appends a second copy: the FAT
becomes `l ++ l` and the state differs from the once-parsed state. -/
theorem C9_second_parse_extends_fat :
    ∀ (fuel : Nat) (o o₁ : Ole) (l : List SectorType),
    o.header.first_difat_sector_location.isRegular = false →
    o.header.first_mini_fat_sector_location.isRegular = false →
    o.header.first_directory_sector_location.isRegular = false →
    o.fat = none →
    o.parse fuel = Except.ok o₁ →
    o₁.fat = some l →
    l ≠ [] →
    o₁.parse fuel = Except.ok { o₁ with fat := some (l ++ l) } ∧
    ({ o₁ with fat := some (l ++ l) } : Ole) ≠ o₁ := by
  intro fuel o o₁ l h1 h2 h3 hf0 hp hfat hne
  rw [parse_eq_parse_fat fuel o h1 h2 h3] at hp
  unfold Ole.parse_fat at hp
  dsimp only [] at hp
  split at hp
  · exact absurd hp (by simp)
  · rename_i hguard
    rw [hf0, load_table_sectors_eq] at hp
    cases hc : table_chunks o.body (get_sector_size o.version / 4) o.difat with
    | error e =>
      rw [hc] at hp
      exact absurd hp (by simp [Except.map])
    | ok cs =>
      rw [hc] at hp
      simp only [Except.map] at hp
      injection hp with hp
      have hh : o₁.header = o.header := by rw [← hp]
      have hb : o₁.body = o.body := by rw [← hp]
      have hd : o₁.difat = o.difat := by rw [← hp]
      have hv : o₁.version = o.version := by rw [← hp]
      have hfold : cs.foldl mergeStep none = some l := by
        rw [← hfat, ← hp]
      cases cs with
      | nil => exact absurd hfold (by simp)
      | cons c rest =>
        rw [foldl_mergeStep_none] at hfold
        have hl : (c :: rest).flatten = l := by
          injection hfold
        constructor
        · rw [parse_eq_parse_fat fuel o₁ (by rw [hh]; exact h1)
            (by rw [hh]; exact h2) (by rw [hh]; exact h3)]
          unfold Ole.parse_fat
          dsimp only []
          rw [if_neg (by rw [hh, hd]; exact hguard)]
          rw [load_table_sectors_eq, hb, hd, hv, hc]
          simp only [Except.map]
          rw [hfat, foldl_mergeStep_some, hl]
        · intro heq
          have hfq := congrArg Ole.fat heq
          simp only [] at hfq
          rw [hfat] at hfq
          have hll : l ++ l = l := by
            injection hfq with hfq2
          have hLL := congrArg List.length hll
          rw [List.length_append] at hLL
          have hlen0 : l.length = 0 := by omega
          exact hne (List.eq_nil_of_length_eq_zero hlen0)

/-- C9 witness: the amended statement at `oleC9`/`oleC9b` with the
concrete 128-entry FAT. -/
theorem C9_second_parse_extends_fat_witness :
    oleC9b.parse 1 = Except.ok { oleC9b with fat := some (fatC9 ++ fatC9) } ∧
    ({ oleC9b with fat := some (fatC9 ++ fatC9) } : Ole) ≠ oleC9b :=
  C9_second_parse_extends_fat 1 oleC9 oleC9b fatC9 rfl rfl rfl rfl rfl rfl
    (by decide)

/-- C10 counterexample: the claim says `get_valid_entries` returns the
longest leading prefix of `Regular` entries, truncating at the first
non-`Regular` element.  On `[Regular 1, Free, Regular 2]` the leading
regular prefix is `[Regular 1]`, but the function skips the `Free` and
keeps `Regular 2`. -/
theorem C10_counterexample :
    get_valid_entries
      [SectorType.RegularSect 1, SectorType.FreeSect, SectorType.RegularSect 2] ≠
    List.takeWhile (fun e => e.isRegular)
      [SectorType.RegularSect 1, SectorType.FreeSect, SectorType.RegularSect 2] := by
  decide

/-- C10 (amended): `get_valid_entries` truncates only at the first
`EndOfChain`; within that prefix it keeps exactly the `Regular`
entries, silently skipping the other sentinels (so `Regular` entries
after a `Free` are kept). -/
theorem C10_valid_entries_characterisation :
    ∀ l, get_valid_entries l =
      (l.takeWhile (fun e => !(e == SectorType.EndOfChain))).filter
        (fun e => e.isRegular) := by
  intro l
  induction l with
  | nil => rfl
  | cons e rest ih =>
    cases e <;>
      simp [get_valid_entries, List.takeWhile, List.filter,
        SectorType.isRegular, ih]
